import Mathlib

/-!
Verification of the request/auth dispatcher of the mangopay2-nodejs-sdk
repository (file src/lib/api.js), by a shallow embedding in Lean.

JavaScript objects are modelled as insertion-ordered association lists
from string keys to values; decoded JSON payloads are modelled by the
inductive type JsVal.  JavaScript numbers enter the claims only through
integer arithmetic, NaN and undefined, modelled by JsNum.
-/

set_option autoImplicit false

namespace Mangopay

/-- Decoded JSON-like value, as produced by the REST client and consumed by
the dispatcher.  Objects keep insertion order, as JavaScript objects do. -/
inductive JsVal where
  | str (s : String)
  | num (n : Int)
  | boolv (b : Bool)
  | nullv
  | undef
  | obj (fields : List (String × JsVal))
  | arr (elems : List JsVal)

/-- Truthiness of a JavaScript value, used by conditions such as
`data.token_type && data.access_token` (src/lib/api.js line 284). -/
def truthy : JsVal → Bool
  | JsVal.str s => !(s == "")
  | JsVal.num n => !(n == 0)
  | JsVal.boolv b => b
  | JsVal.nullv => false
  | JsVal.undef => false
  | JsVal.obj _ => true
  | JsVal.arr _ => true

section AssocOps

variable {A : Type}

/-- First-match lookup in an association list: reading property k of a
JavaScript object represented as an ordered key/value list. -/
def lookupKV : List (String × A) → String → Option A
  | [], _ => none
  | kv :: rest, k => if kv.1 = k then some kv.2 else lookupKV rest k

/-- Keys of an object, in insertion order. -/
def keysOf (o : List (String × A)) : List String := o.map Prod.fst

/-- Property write o[k] = v of a JavaScript object: an existing key keeps its
position and its value is overwritten, a new key is appended at the end.
JavaScript objects never hold a duplicate key; on lists outside that domain
the first occurrence is the one overwritten, matching the first-match rule
of lookupKV. -/
def setKey : List (String × A) → String → A → List (String × A)
  | [], k, v => [(k, v)]
  | kv :: rest, k, v => if kv.1 = k then (k, v) :: rest else kv :: setKey rest k v

/-- Semantics of underscore extendOwn(dst, src) (also of extend for the flat
source objects appearing in api.js): every own key of src is written into
dst in order, so src wins on colliding keys. -/
def extendOwn (dst : List (String × A)) : List (String × A) → List (String × A)
  | [] => dst
  | kv :: rest => extendOwn (setKey dst kv.1 kv.2) rest

@[simp] theorem lookupKV_nil (k : String) :
    lookupKV ([] : List (String × A)) k = none := rfl

@[simp] theorem keysOf_nil : keysOf ([] : List (String × A)) = [] := rfl

@[simp] theorem keysOf_cons (kv : String × A) (rest : List (String × A)) :
    keysOf (kv :: rest) = kv.1 :: keysOf rest := rfl

theorem mem_keysOf_setKey {o : List (String × A)} {k k' : String} {v : A} :
    k' ∈ keysOf (setKey o k v) ↔ k' ∈ keysOf o ∨ k' = k := by
  induction o with
  | nil => simp [setKey, keysOf]
  | cons kv rest ih =>
    by_cases hk : kv.1 = k
    · simp [setKey, hk, or_assoc, or_comm]
    · simp only [setKey, hk, if_false, keysOf_cons, List.mem_cons, ih]
      tauto

theorem mem_keysOf_extendOwn {src : List (String × A)} {dst : List (String × A)} {k : String} :
    k ∈ keysOf (extendOwn dst src) ↔ k ∈ keysOf dst ∨ k ∈ keysOf src := by
  induction src generalizing dst with
  | nil => simp [extendOwn]
  | cons kv rest ih =>
    simp only [extendOwn, ih, mem_keysOf_setKey, keysOf_cons, List.mem_cons]
    tauto

theorem lookupKV_setKey_self (o : List (String × A)) (k : String) (v : A) :
    lookupKV (setKey o k v) k = some v := by
  induction o with
  | nil => simp [setKey, lookupKV]
  | cons kv rest ih =>
    by_cases hk : kv.1 = k
    · simp [setKey, hk, lookupKV]
    · simp [setKey, hk, lookupKV, ih]

theorem lookupKV_setKey_ne (o : List (String × A)) (k k' : String) (v : A) (h : k' ≠ k) :
    lookupKV (setKey o k v) k' = lookupKV o k' := by
  have hks : k ≠ k' := Ne.symm h
  induction o with
  | nil => simp [setKey, lookupKV, hks]
  | cons kv rest ih =>
    by_cases hk : kv.1 = k
    · simp [setKey, hk, lookupKV, hks]
    · simp only [setKey, lookupKV, if_neg hk, ih]

theorem lookupKV_extendOwn_of_notMem (dst src : List (String × A)) (k : String)
    (h : k ∉ keysOf src) :
    lookupKV (extendOwn dst src) k = lookupKV dst k := by
  induction src generalizing dst with
  | nil => rfl
  | cons kv rest ih =>
    simp only [keysOf_cons, List.mem_cons, not_or] at h
    rw [extendOwn, ih _ h.2, lookupKV_setKey_ne _ _ _ _ h.1]

theorem lookupKV_extendOwn_mem (dst src : List (String × A)) (k : String) (v : A)
    (hnd : (keysOf src).Nodup) (hmem : (k, v) ∈ src) :
    lookupKV (extendOwn dst src) k = some v := by
  induction src generalizing dst with
  | nil => simp at hmem
  | cons kv rest ih =>
    simp only [keysOf_cons, List.nodup_cons] at hnd
    rcases List.mem_cons.mp hmem with heq | hmem'
    · rw [extendOwn, lookupKV_extendOwn_of_notMem _ _ _ (by
        simpa using (heq ▸ hnd.1 : (k, v).1 ∉ keysOf rest))]
      exact heq ▸ lookupKV_setKey_self dst kv.1 kv.2
    · exact ih (setKey dst kv.1 kv.2) hnd.2 hmem'

theorem lookupKV_eq_some_of_mem {src : List (String × A)} {k : String} {v : A}
    (hnd : (keysOf src).Nodup) (hmem : (k, v) ∈ src) :
    lookupKV src k = some v := by
  induction src with
  | nil => simp at hmem
  | cons kv rest ih =>
    simp only [keysOf_cons, List.nodup_cons] at hnd
    rcases List.mem_cons.mp hmem with heq | hmem'
    · subst heq; simp [lookupKV]
    · have hne : kv.1 ≠ k := fun hc =>
        hnd.1 (hc ▸ List.mem_map.mpr ⟨(k, v), hmem', rfl⟩)
      simp [lookupKV, hne, ih hnd.2 hmem']

theorem lookupKV_eq_none_of_notMem {src : List (String × A)} {k : String}
    (h : k ∉ keysOf src) : lookupKV src k = none := by
  induction src with
  | nil => rfl
  | cons kv rest ih =>
    simp only [keysOf_cons, List.mem_cons, not_or] at h
    have hne : kv.1 ≠ k := fun hc => h.1 hc.symm
    simp [lookupKV, hne, ih h.2]

theorem mem_of_lookupKV_eq_some {src : List (String × A)} {k : String} {v : A}
    (h : lookupKV src k = some v) : (k, v) ∈ src := by
  induction src with
  | nil => exact Option.noConfusion h
  | cons kv rest ih =>
    by_cases hk : kv.1 = k
    · simp only [lookupKV, hk, if_true, Option.some.injEq] at h
      exact List.mem_cons.mpr (Or.inl (by rw [← h, ← hk]))
    · simp only [lookupKV, hk, if_false] at h
      exact List.mem_cons.mpr (Or.inr (ih h))

theorem mem_keysOf_of_lookupKV {src : List (String × A)} {k : String} {v : A}
    (h : lookupKV src k = some v) : k ∈ keysOf src :=
  List.mem_map.mpr ⟨(k, v), mem_of_lookupKV_eq_some h, rfl⟩

theorem lookupKV_extendOwn (dst src : List (String × A)) (k : String)
    (hnd : (keysOf src).Nodup) :
    lookupKV (extendOwn dst src) k = (lookupKV src k).or (lookupKV dst k) := by
  cases hs : lookupKV src k with
  | some v =>
    rw [lookupKV_extendOwn_mem dst src k v hnd (mem_of_lookupKV_eq_some hs), Option.or]
  | none =>
    have : k ∉ keysOf src := fun hmem => by
      rcases List.mem_map.mp hmem with ⟨kv, hkv, hfst⟩
      rw [lookupKV_eq_some_of_mem hnd (hfst ▸ hkv : (k, kv.2) ∈ src)] at hs
      exact Option.noConfusion hs
    rw [lookupKV_extendOwn_of_notMem dst src k this, Option.or]

end AssocOps

/-- JavaScript number as it appears in the dispatcher bookkeeping: an integer,
NaN (result of failed numeric conversion or arithmetic on NaN), or the
undefined value (read of a missing property or array slot).  The numeric
header values and timestamps handled by api.js are integral. -/
inductive JsNum where
  | val (n : Int)
  | nan
  | undef
  deriving DecidableEq

/-- Subtraction; any operand that is not a plain number yields NaN, as
undefined coerces to NaN in JavaScript arithmetic. -/
def jsSub : JsNum → JsNum → JsNum
  | JsNum.val a, JsNum.val b => JsNum.val (a - b)
  | _, _ => JsNum.nan

/-- Addition with the same NaN propagation as jsSub. -/
def jsAdd : JsNum → JsNum → JsNum
  | JsNum.val a, JsNum.val b => JsNum.val (a + b)
  | _, _ => JsNum.nan

/-- Multiplication with the same NaN propagation as jsSub. -/
def jsMul : JsNum → JsNum → JsNum
  | JsNum.val a, JsNum.val b => JsNum.val (a * b)
  | _, _ => JsNum.nan

/-- The JavaScript strict greater-than: every comparison involving NaN (and
hence undefined, which coerces to NaN) is false. -/
def jsGt : JsNum → JsNum → Bool
  | JsNum.val a, JsNum.val b => decide (b < a)
  | _, _ => false

/-- Digit list to natural number; none when empty or holding a non-digit. -/
def digitsToNat (ds : List Char) : Option Nat :=
  if 0 < ds.length && ds.all Char.isDigit then
    some (ds.foldl (fun a c => a * 10 + (c.toNat - 48)) 0)
  else none

/-- Leading and trailing whitespace removal, as the JavaScript Number()
conversion performs on its string argument. -/
def trimChars (l : List Char) : List Char :=
  ((l.dropWhile Char.isWhitespace).reverse.dropWhile Char.isWhitespace).reverse

/-- The JavaScript Number() conversion restricted to the strings the rate
limit headers carry: optional sign followed by decimal digits (an empty or
blank string converts to 0, anything else to NaN).  Fractional, hexadecimal
and exponent forms never occur in these headers and are out of the modelled
domain. -/
def jsNumberOfChars (l : List Char) : JsNum :=
  match trimChars l with
  | [] => JsNum.val 0
  | '-' :: ds =>
    match digitsToNat ds with
    | some n => JsNum.val (-(n : Int))
    | none => JsNum.nan
  | '+' :: ds =>
    match digitsToNat ds with
    | some n => JsNum.val (n : Int)
    | none => JsNum.nan
  | ds =>
    match digitsToNat ds with
    | some n => JsNum.val (n : Int)
    | none => JsNum.nan

/-- The JavaScript split with the two-character separator of the rate limit
code, s.split(", "): scans left to right, cuts at each separator occurrence.
An empty input yields one empty piece, as in JavaScript. -/
def splitCommaSpace : List Char → List Char → List (List Char)
  | [], acc => [acc]
  | ',' :: ' ' :: rest, acc => acc :: splitCommaSpace rest []
  | c :: rest, acc => splitCommaSpace (rest) (acc ++ [c])

/-- Response headers: a JavaScript object with string values. -/
abbrev Headers := List (String × String)

/-- One rate-limit window entry (src/lib/api.js lines 331-356). -/
structure RateLimitEntry where
  minutesInterval : Int
  callsMade : JsNum
  callsRemaining : JsNum
  resetTimeMillis : JsNum
  deriving DecidableEq

/-- The four fixed windows held in this.rateLimits, in array order
0 = 15m, 1 = 30m, 2 = 60m, 3 = 24h.  Reachable dispatcher states hold
either the initial empty array or exactly these four entries, so the
array is modelled as a four-field structure, with the empty initial
array represented by the enclosing Option being none. -/
structure RateLimits where
  w15 : RateLimitEntry
  w30 : RateLimitEntry
  w60 : RateLimitEntry
  w1440 : RateLimitEntry
  deriving DecidableEq

/-- The zeroed four-window array installed when this.rateLimits is empty. -/
def initRateLimits : RateLimits :=
  { w15 := ⟨15, JsNum.val 0, JsNum.val 0, JsNum.val 0⟩
    w30 := ⟨30, JsNum.val 0, JsNum.val 0, JsNum.val 0⟩
    w60 := ⟨60, JsNum.val 0, JsNum.val 0, JsNum.val 0⟩
    w1440 := ⟨24 * 60, JsNum.val 0, JsNum.val 0, JsNum.val 0⟩ }

/-- The value of headers[name].split(", ").map(Number). -/
def jsSplitParse (s : String) : List JsNum :=
  (splitCommaSpace s.data []).map jsNumberOfChars

/-- JavaScript array read a[i]: undefined past the end. -/
def nthNum (l : List JsNum) (i : Nat) : JsNum := (l.get? i).getD JsNum.undef

/-- The setRateLimits function of src/lib/api.js lines 329-388: installs the
zeroed windows when the array is empty, then overwrites callsMade,
callsRemaining and resetTimeMillis of all four windows from the
x-ratelimit, x-ratelimit-remaining and x-ratelimit-reset headers
respectively, each header a comma separated list parsed with Number. -/
def setRateLimits (rl : Option RateLimits) (headers : Option Headers) : RateLimits :=
  let r0 := rl.getD initRateLimits
  match headers with
  | none => r0
  | some hs =>
    let r1 :=
      match lookupKV hs "x-ratelimit" with
      | none => r0
      | some s =>
        let rateLimit := jsSplitParse s
        if 0 < rateLimit.length then
          { r0 with
            w15 := { r0.w15 with callsMade := nthNum rateLimit 0 }
            w30 := { r0.w30 with callsMade := nthNum rateLimit 1 }
            w60 := { r0.w60 with callsMade := nthNum rateLimit 2 }
            w1440 := { r0.w1440 with callsMade := nthNum rateLimit 3 } }
        else r0
    let r2 :=
      match lookupKV hs "x-ratelimit-remaining" with
      | none => r1
      | some s =>
        let remaining := jsSplitParse s
        if 0 < remaining.length then
          { r1 with
            w15 := { r1.w15 with callsRemaining := nthNum remaining 0 }
            w30 := { r1.w30 with callsRemaining := nthNum remaining 1 }
            w60 := { r1.w60 with callsRemaining := nthNum remaining 2 }
            w1440 := { r1.w1440 with callsRemaining := nthNum remaining 3 } }
        else r1
    match lookupKV hs "x-ratelimit-reset" with
    | none => r2
    | some s =>
      let limitReset := jsSplitParse s
      if 0 < limitReset.length then
        { r2 with
          w15 := { r2.w15 with resetTimeMillis := nthNum limitReset 0 }
          w30 := { r2.w30 with resetTimeMillis := nthNum limitReset 1 }
          w60 := { r2.w60 with resetTimeMillis := nthNum limitReset 2 }
          w1440 := { r2.w1440 with resetTimeMillis := nthNum limitReset 3 } }
      else r2

/-- The isExpired predicate of src/lib/api.js lines 301-305, with the current
clock reading passed explicitly.  When no authorization has happened yet,
this.authorizationExpireTime is undefined. -/
def isExpired (now : Int) (authorizationExpireTime : JsNum) : Bool :=
  jsGt (JsNum.val now) (jsSub authorizationExpireTime (JsNum.val 60000))

/-- Truthiness of a header slot: absent (undefined) and the empty string are
falsy. -/
def truthyHeader : Option String → Bool
  | none => false
  | some s => !(s == "")

/-- The guard of src/lib/api.js line 119 deciding whether method() authorizes
before dispatching: no truthy Authorization default header, or expiry. -/
def needsAuthorization (authHeader : Option String) (now : Int)
    (authorizationExpireTime : JsNum) : Bool :=
  !(truthyHeader authHeader) || isExpired now authorizationExpireTime

/-- Kinds of model entities, distinguished by the instanceof checks of
canReadSubRequestData. -/
inductive EntityKind where
  | payIn
  | payOut
  | bankAccount
  | other
  deriving DecidableEq

/-- Modelled from the spec: the model layer (the EntityBase subclasses with
their getReadOnlyProperties and toJSON methods) is not under src/.  Per the
spec, a model is a plain data holder with a read-only-field list and a
serialization method, so an entity is its class kind (PayIn, PayOut,
BankAccount or any other model class), its own enumerable fields in
insertion order, and the list returned by getReadOnlyProperties. -/
structure Entity where
  kind : EntityKind
  fields : List (String × JsVal)
  readOnly : List String

/-- Serialized form of a nested variant object: per the spec a plain data
holder whose toJSON yields its own fields.  The designated variant fields
hold such objects; on a value outside that domain JavaScript would throw on
the toJSON call, so those inputs are not part of the claims. -/
def toJSONFields : JsVal → List (String × JsVal)
  | JsVal.obj fs => fs
  | _ => []

/-- The canReadSubRequestData method of src/lib/api.js lines 245-259. -/
def canReadSubRequestData (entity : Entity) (propertyName : String) : Bool :=
  if entity.kind == EntityKind.payIn &&
      (propertyName == "PaymentDetails" || propertyName == "ExecutionDetails") then
    true
  else if entity.kind == EntityKind.payOut && propertyName == "MeanOfPaymentDetails" then
    true
  else if entity.kind == EntityKind.bankAccount && propertyName == "Details" then
    true
  else
    false

/-- The buildRequestData method of src/lib/api.js lines 229-243.  The
difference/pick pair over the entity keys equals filtering the field list by
the blacklist, and the each over the entity keys equals a fold over the
field pairs, since a JavaScript object holds every key once. -/
def buildRequestData (entity : Entity) : List (String × JsVal) :=
  let requestData := entity.fields.filter (fun kv => !(entity.readOnly.contains kv.1))
  entity.fields.foldl
    (fun acc kv =>
      if canReadSubRequestData entity kv.1 then extendOwn acc (toJSONFields kv.2) else acc)
    requestData

/-- Property read data.k of a decoded value (undefined when absent or when
the value is not an object). -/
def jsGet (v : JsVal) (k : String) : JsVal :=
  match v with
  | JsVal.obj fs => (lookupKV fs k).getD JsVal.undef
  | _ => JsVal.undef

/-- JavaScript string coercion as used for the values concatenated into the
Authorization header; token_type and access_token are strings in a token
endpoint response, so only the string case is exercised by the claims. -/
def jsToString : JsVal → String
  | JsVal.str s => s
  | JsVal.num n => toString n
  | JsVal.boolv true => "true"
  | JsVal.boolv false => "false"
  | JsVal.nullv => "null"
  | JsVal.undef => "undefined"
  | JsVal.obj _ => "[object Object]"
  | JsVal.arr _ => ""

/-- Coercion of a property value into arithmetic: numbers pass through and a
missing expires_in (undefined) gives NaN.  Numeric strings, which JavaScript
would also convert, do not occur in a token endpoint response. -/
def jsToNum : JsVal → JsNum
  | JsVal.num n => JsNum.val n
  | _ => JsNum.nan

/-- Result of one authorize() round trip. -/
inductive AuthOutcome where
  | ok (authorizationHeader : String) (expireTime : JsNum) (payload : JsVal)
  | rejected (payload : JsVal)
  | transportRejected (message : String)

/-- The authorize() flow of src/lib/api.js lines 266-299, with the clock
reading passed explicitly.  The event is either the decoded token endpoint
response or a transport error message (the on-error handler rejects with
err.message).  On a truthy token_type and access_token the promise resolves
with the raw payload after storing the Authorization header value and the
expiry; otherwise it rejects with the payload. -/
def authorize (now : Int) (event : Except String JsVal) : AuthOutcome :=
  match event with
  | Except.error msg => AuthOutcome.transportRejected msg
  | Except.ok data =>
    if truthy (jsGet data "token_type") && truthy (jsGet data "access_token") then
      AuthOutcome.ok
        (jsToString (jsGet data "token_type") ++ " " ++ jsToString (jsGet data "access_token"))
        (jsAdd (JsNum.val now) (jsMul (jsToNum (jsGet data "expires_in")) (JsNum.val 1000)))
        data
    else
      AuthOutcome.rejected data

/-- The header merge of method() (src/lib/api.js lines 139-146).  The shallow
extend at line 139 makes requestOptions.headers the caller headers object
when one is supplied, and the default headers object otherwise.  When caller
headers are present without a Content-Type entry, line 145 extends that very
object first with the defaults and then with an alias of itself, which by
then already holds the merge, so the net effect is that default headers win
on colliding keys while caller-only keys survive.  When the caller headers
contain Content-Type, line 145 is skipped and the caller object stands
alone. -/
def mergeRequestHeaders (defaults : Headers) (callerHeaders : Option Headers) : Headers :=
  match callerHeaders with
  | none => defaults
  | some h =>
    if lookupKV h "Content-Type" = none then extendOwn h defaults
    else h

/-- An instance built by new requestOptions.dataClass(dataItem). -/
structure ModelInst where
  ofPayload : JsVal

/-- The value a call promise settles with: the raw decoded payload, the
response object extended with a body property (resolveWithFullResponse), or
dataClass instances. -/
inductive Resolved where
  | raw (v : JsVal)
  | full (statusCode : Nat) (headers : Headers) (body : JsVal)
  | inst (m : ModelInst)
  | insts (ms : List ModelInst)

/-- One HTTP response as delivered to the request callback. -/
structure Resp where
  statusCode : Nat
  data : JsVal
  headers : Headers

/-- How the dispatched call ends. -/
inductive Outcome where
  | resolved (v : Resolved)
  | rejected (v : Resolved)
  | authFailed
  | noResponse

/-- The request options fields the response handler of _requestApi reads. -/
structure ReqOptions where
  method : String
  hasDataClass : Bool
  resolveWithFullResponse : Bool

/-- Dispatcher facts the response handler touches: the number of authorize()
round trips performed, the errorHandler invocations (message and decoded
body), the contents of the caller data object (aliased by
requestOptions.data since line 139 copies the reference, not the object),
and this.rateLimits. -/
structure DispatchState where
  authorizeCount : Nat
  errorHandlerCalls : List (JsVal × JsVal)
  optionsData : List (String × JsVal)
  rateLimits : Option RateLimits

/-- Outcome together with the final dispatcher facts. -/
structure RunResult where
  outcome : Outcome
  state : DispatchState

/-- The manual verb test of src/lib/api.js lines 167 and 200. -/
def isManualVerb (m : String) : Bool := ["post", "get", "put"].contains m

/-- Own enumerable properties of a decoded payload as seen by the extend at
line 205: the fields of an object, the index keyed elements of an array.
Registered endpoints decode JSON objects or arrays, so other payloads (whose
boxed forms would contribute other properties) are outside the modelled
domain and contribute none. -/
def ownFields : JsVal → List (String × JsVal)
  | JsVal.obj fs => fs
  | JsVal.arr es => es.enum.map (fun p => (toString p.1, p.2))
  | _ => []

/-- Bump of the authorize() round trip counter. -/
def incAuth (st : DispatchState) : DispatchState :=
  { st with authorizeCount := st.authorizeCount + 1 }

/-- The response handling of _requestApi (src/lib/api.js lines 158-227).
The list holds the successive HTTP responses the underlying client returns
for this call: a 401 makes the dispatcher authorize again and re-dispatch
the same requestOptions through self.method (lines 179-193), consuming the
next response; authOk tells whether the token endpoint currently accepts
the stored credentials, and a failed re-authorization propagates through
the catch at line 193.  On other non-2xx statuses the errorHandler runs
with (data.Message, data) and the promise rejects with the resolve
argument; on 2xx the rate limits are read from the headers and, for a
registered (non-manual) method, requestOptions.data is extended with the
payload fields and a data property before the optional dataClass
wrapping. -/
def requestApi (opts : ReqOptions) (authOk : Bool) :
    DispatchState → List Resp → RunResult
  | st, [] => ⟨Outcome.noResponse, st⟩
  | st, r :: rest =>
    let resolveArgument :=
      if opts.resolveWithFullResponse then Resolved.full r.statusCode r.headers r.data
      else Resolved.raw r.data
    if r.statusCode == 401 then
      if authOk then requestApi opts authOk (incAuth st) rest
      else ⟨Outcome.authFailed, incAuth st⟩
    else if r.statusCode < 200 || r.statusCode > 299 then
      ⟨Outcome.rejected resolveArgument,
       { st with errorHandlerCalls := st.errorHandlerCalls ++ [(jsGet r.data "Message", r.data)] }⟩
    else
      let st1 := { st with rateLimits := some (setRateLimits st.rateLimits (some r.headers)) }
      if isManualVerb opts.method then
        ⟨Outcome.resolved resolveArgument, st1⟩
      else
        let st2 := { st1 with
          optionsData := setKey (extendOwn st1.optionsData (ownFields r.data)) "data" r.data }
        let resolveArgument' :=
          if opts.hasDataClass && !opts.resolveWithFullResponse then
            match r.data with
            | JsVal.arr items => Resolved.insts (items.map ModelInst.mk)
            | d => Resolved.inst (ModelInst.mk d)
          else resolveArgument
        ⟨Outcome.resolved resolveArgument', st2⟩

/-!  Concrete fixtures used by witnesses and counterexamples. -/

/-- Options of a call dispatched through a registered endpoint method. -/
def sampleOpts : ReqOptions := ⟨"users_get", false, false⟩

/-- Fresh dispatcher facts before any response is handled. -/
def sampleSt : DispatchState := ⟨0, [], [], none⟩

/-- A 401 response. -/
def sample401 : Resp := ⟨401, JsVal.obj [("Message", JsVal.str "unauthorized")], []⟩

/-- A successful response. -/
def sample200 : Resp := ⟨200, JsVal.obj [("Id", JsVal.str "100")], []⟩

/-- Claim C1, statement under test: on a 401 the dispatcher performs exactly
one re-authorization and one retry, and a second 401 propagates as a
rejection with no further retry. -/
def specClaimC1 (opts : ReqOptions) (st : DispatchState) (rs : List Resp) : Prop :=
  (requestApi opts true st rs).state.authorizeCount = 1 ∧
  ∃ v, (requestApi opts true st rs).outcome = Outcome.rejected v

/-- C1 counterexample: against the claim that a second 401 propagates as a
rejection after exactly one re-authorization, the response sequence
401, 401, 200 makes the dispatcher authorize twice and resolve the call on
the third attempt, because the 401 handler of _requestApi re-enters
self.method, whose own 401 handling retries again without any bound. -/
theorem requestApi_second401_retries_again_cex :
    (requestApi sampleOpts true sampleSt [sample401, sample401, sample200]).state.authorizeCount
      = 2 ∧
    (requestApi sampleOpts true sampleSt [sample401, sample401, sample200]).outcome
      = Outcome.resolved (Resolved.raw (JsVal.obj [("Id", JsVal.str "100")])) ∧
    ¬ specClaimC1 sampleOpts sampleSt [sample401, sample401, sample200] := by
  refine ⟨rfl, rfl, ?_⟩
  intro hclaim
  have h1 : (2 : Nat) = 1 := hclaim.1
  exact absurd h1 (by decide)

/-- C1 as amended: every 401 response triggers one re-authorization followed
by a retry of the same call (the same requestOptions, consuming the next
response), and when the retry receives a 401 again this repeats without
bound; a 401 turns into a rejection only when the re-authorization itself
fails, in which case the authorize rejection propagates immediately. -/
theorem requestApi_401_reauthorizes_and_retries (opts : ReqOptions) (st : DispatchState)
    (r : Resp) (rest : List Resp) (h : r.statusCode = 401) :
    requestApi opts true st (r :: rest) = requestApi opts true (incAuth st) rest ∧
    requestApi opts false st (r :: rest) = ⟨Outcome.authFailed, incAuth st⟩ := by
  constructor <;> simp [requestApi, h]

/-- Witness for the amended C1 theorem at a concrete 401 response. -/
theorem requestApi_401_reauthorizes_and_retries_witness :
    sample401.statusCode = 401 ∧
    (requestApi sampleOpts true sampleSt [sample401, sample200] =
        requestApi sampleOpts true (incAuth sampleSt) [sample200] ∧
      requestApi sampleOpts false sampleSt [sample401, sample200] =
        ⟨Outcome.authFailed, incAuth sampleSt⟩) :=
  ⟨rfl, requestApi_401_reauthorizes_and_retries sampleOpts sampleSt sample401 [sample200] rfl⟩

/-- Claim C8: per-response idempotence of the rate-limit snapshot update:
re-applying setRateLimits with the same headers leaves the four-window
snapshot unchanged. -/
theorem setRateLimits_idempotent (rl : Option RateLimits) (headers : Option Headers) :
    setRateLimits (some (setRateLimits rl headers)) headers = setRateLimits rl headers := by
  cases headers with
  | none => rfl
  | some hs =>
    rcases hx : lookupKV hs "x-ratelimit" with _ | s1 <;>
      rcases hr : lookupKV hs "x-ratelimit-remaining" with _ | s2 <;>
      rcases hz : lookupKV hs "x-ratelimit-reset" with _ | s3 <;>
      simp only [setRateLimits, Option.getD_some, hx, hr, hz] <;>
      split_ifs <;> rfl

/-- Claim C10: before any authorization (authorizationExpireTime undefined)
isExpired compares the clock against NaN and returns false, so the decision
of method() to authorize before the first call rests entirely on the absence
of a truthy Authorization default header. -/
theorem isExpired_undefined_false :
    (∀ now : Int, isExpired now JsNum.undef = false) ∧
    (∀ (now : Int) (h : Option String),
      needsAuthorization h now JsNum.undef = !(truthyHeader h)) := by
  refine ⟨fun now => rfl, fun now h => ?_⟩
  simp [needsAuthorization, isExpired, jsSub, jsGt]

/-- A JavaScript number that is not a negative number (NaN and undefined are
not numbers below zero). -/
def numNonneg : JsNum → Bool
  | JsNum.val n => decide (0 ≤ n)
  | JsNum.nan => true
  | JsNum.undef => true

/-- All three numeric fields of a window entry are non-negative. -/
def entryNonneg (e : RateLimitEntry) : Bool :=
  numNonneg e.callsMade && numNonneg e.callsRemaining && numNonneg e.resetTimeMillis

/-- All four window entries are non-negative. -/
def snapshotNonneg (r : RateLimits) : Bool :=
  entryNonneg r.w15 && entryNonneg r.w30 && entryNonneg r.w60 && entryNonneg r.w1440

/-- Every numeric component carried by the named header is non-negative. -/
def headerNonneg (hs : Headers) (name : String) : Prop :=
  ∀ s, lookupKV hs name = some s → ∀ x ∈ jsSplitParse s, numNonneg x = true

/-- The component the update takes from position i of the named header: none
when the header is absent or its split is empty, the parsed value otherwise
(undefined past the end of the split, as in JavaScript). -/
def componentAt (hs : Headers) (name : String) (i : Nat) : Option JsNum :=
  match lookupKV hs name with
  | none => none
  | some s =>
    if 0 < (jsSplitParse s).length then some (nthNum (jsSplitParse s) i) else none

/-- Overwrite of one window entry from the position-i components of the three
headers; an absent component leaves the corresponding field unchanged. -/
def updateEntry (e : RateLimitEntry) (made remaining reset : Option JsNum) : RateLimitEntry :=
  { e with
    callsMade := made.getD e.callsMade
    callsRemaining := remaining.getD e.callsRemaining
    resetTimeMillis := reset.getD e.resetTimeMillis }

/-- Each window of the updated snapshot is its own previous entry overwritten
with the components at its own array position only: the per-window shape of
setRateLimits. -/
theorem setRateLimits_windows (rl : Option RateLimits) (hs : Headers) :
    (setRateLimits rl (some hs)).w15 =
      updateEntry ((rl.getD initRateLimits).w15) (componentAt hs "x-ratelimit" 0)
        (componentAt hs "x-ratelimit-remaining" 0) (componentAt hs "x-ratelimit-reset" 0) ∧
    (setRateLimits rl (some hs)).w30 =
      updateEntry ((rl.getD initRateLimits).w30) (componentAt hs "x-ratelimit" 1)
        (componentAt hs "x-ratelimit-remaining" 1) (componentAt hs "x-ratelimit-reset" 1) ∧
    (setRateLimits rl (some hs)).w60 =
      updateEntry ((rl.getD initRateLimits).w60) (componentAt hs "x-ratelimit" 2)
        (componentAt hs "x-ratelimit-remaining" 2) (componentAt hs "x-ratelimit-reset" 2) ∧
    (setRateLimits rl (some hs)).w1440 =
      updateEntry ((rl.getD initRateLimits).w1440) (componentAt hs "x-ratelimit" 3)
        (componentAt hs "x-ratelimit-remaining" 3) (componentAt hs "x-ratelimit-reset" 3) := by
  rcases hx : lookupKV hs "x-ratelimit" with _ | s1 <;>
    rcases hr : lookupKV hs "x-ratelimit-remaining" with _ | s2 <;>
    rcases hz : lookupKV hs "x-ratelimit-reset" with _ | s3 <;>
    simp only [setRateLimits, componentAt, hx, hr, hz] <;>
    (try split_ifs) <;>
    exact ⟨rfl, rfl, rfl, rfl⟩

/-- Membership of the selected component in the split list, or the undefined
default: either way it is non-negative when the header is. -/
theorem numNonneg_nthNum (l : List JsNum) (i : Nat)
    (h : ∀ x ∈ l, numNonneg x = true) : numNonneg (nthNum l i) = true := by
  unfold nthNum
  cases hg : l.get? i with
  | none => rfl
  | some x => exact h x (List.get?_mem hg)

/-- A present component of a non-negative header is non-negative. -/
theorem componentAt_nonneg (hs : Headers) (name : String) (i : Nat)
    (h : headerNonneg hs name) :
    ∀ x, componentAt hs name i = some x → numNonneg x = true := by
  intro x hx
  unfold componentAt at hx
  split at hx
  · exact Option.noConfusion hx
  · rename_i s hl
    split at hx
    · cases hx
      exact numNonneg_nthNum _ _ (h s hl)
    · exact Option.noConfusion hx

/-- Overwriting an entry with non-negative components keeps it non-negative. -/
theorem updateEntry_nonneg (e : RateLimitEntry) (c1 c2 c3 : Option JsNum)
    (he : entryNonneg e = true)
    (h1 : ∀ x, c1 = some x → numNonneg x = true)
    (h2 : ∀ x, c2 = some x → numNonneg x = true)
    (h3 : ∀ x, c3 = some x → numNonneg x = true) :
    entryNonneg (updateEntry e c1 c2 c3) = true := by
  simp only [entryNonneg, Bool.and_eq_true] at he
  cases c1 <;> cases c2 <;> cases c3 <;>
    simp only [updateEntry, entryNonneg, Option.getD_some, Option.getD_none,
      Bool.and_eq_true] <;>
    refine ⟨⟨?_, ?_⟩, ?_⟩ <;>
    first
      | exact he.1.1
      | exact he.1.2
      | exact he.2
      | exact h1 _ rfl
      | exact h2 _ rfl
      | exact h3 _ rfl

/-- Headers whose first x-ratelimit component is a negative number. -/
def negHeaders : Headers := [("x-ratelimit", "-1, 0, 0, 0")]

/-- C4 counterexample: the update copies parsed header values verbatim, so a
header carrying a negative component makes callsMade of the 15-minute window
negative; the claim that the entries are never negative over every processed
response fails. -/
theorem setRateLimits_negative_cex :
    (setRateLimits none (some negHeaders)).w15.callsMade = JsNum.val (-1) ∧
    snapshotNonneg (setRateLimits none (some negHeaders)) = false := by
  constructor <;> decide

/-- C4 as amended: provided every numeric component of the three rate-limit
headers of each processed response is non-negative, a snapshot that starts
non-negative (or empty) stays non-negative; independently of that proviso,
each window entry is a function of its own previous entry and the components
at its own position only, so updating one window never changes another. -/
theorem setRateLimits_nonneg_independent (rl : Option RateLimits) (hs : Headers)
    (hprev : ∀ r, rl = some r → snapshotNonneg r = true)
    (h1 : headerNonneg hs "x-ratelimit")
    (h2 : headerNonneg hs "x-ratelimit-remaining")
    (h3 : headerNonneg hs "x-ratelimit-reset") :
    snapshotNonneg (setRateLimits rl (some hs)) = true ∧
    (setRateLimits rl (some hs)).w15 =
      updateEntry ((rl.getD initRateLimits).w15) (componentAt hs "x-ratelimit" 0)
        (componentAt hs "x-ratelimit-remaining" 0) (componentAt hs "x-ratelimit-reset" 0) ∧
    (setRateLimits rl (some hs)).w30 =
      updateEntry ((rl.getD initRateLimits).w30) (componentAt hs "x-ratelimit" 1)
        (componentAt hs "x-ratelimit-remaining" 1) (componentAt hs "x-ratelimit-reset" 1) ∧
    (setRateLimits rl (some hs)).w60 =
      updateEntry ((rl.getD initRateLimits).w60) (componentAt hs "x-ratelimit" 2)
        (componentAt hs "x-ratelimit-remaining" 2) (componentAt hs "x-ratelimit-reset" 2) ∧
    (setRateLimits rl (some hs)).w1440 =
      updateEntry ((rl.getD initRateLimits).w1440) (componentAt hs "x-ratelimit" 3)
        (componentAt hs "x-ratelimit-remaining" 3) (componentAt hs "x-ratelimit-reset" 3) := by
  obtain ⟨e15, e30, e60, e1440⟩ := setRateLimits_windows rl hs
  have hbase : snapshotNonneg (rl.getD initRateLimits) = true := by
    cases rl with
    | none => rfl
    | some r => exact hprev r rfl
  simp only [snapshotNonneg, Bool.and_eq_true] at hbase
  refine ⟨?_, e15, e30, e60, e1440⟩
  simp only [snapshotNonneg, Bool.and_eq_true, e15, e30, e60, e1440]
  exact ⟨⟨⟨updateEntry_nonneg _ _ _ _ hbase.1.1.1 (componentAt_nonneg hs _ 0 h1)
        (componentAt_nonneg hs _ 0 h2) (componentAt_nonneg hs _ 0 h3),
      updateEntry_nonneg _ _ _ _ hbase.1.1.2 (componentAt_nonneg hs _ 1 h1)
        (componentAt_nonneg hs _ 1 h2) (componentAt_nonneg hs _ 1 h3)⟩,
      updateEntry_nonneg _ _ _ _ hbase.1.2 (componentAt_nonneg hs _ 2 h1)
        (componentAt_nonneg hs _ 2 h2) (componentAt_nonneg hs _ 2 h3)⟩,
    updateEntry_nonneg _ _ _ _ hbase.2 (componentAt_nonneg hs _ 3 h1)
      (componentAt_nonneg hs _ 3 h2) (componentAt_nonneg hs _ 3 h3)⟩

/-- Witness for the amended C4 theorem at a concrete header set. -/
theorem setRateLimits_nonneg_independent_witness :
    snapshotNonneg
        (setRateLimits none (some [("x-ratelimit", "120, 60, 30, 10")])) = true :=
  (setRateLimits_nonneg_independent none [("x-ratelimit", "120, 60, 30, 10")]
    (fun r h => Option.noConfusion h)
    (by intro s hseq x hx; cases hseq; revert x hx; decide)
    (by intro s hseq; cases hseq)
    (by intro s hseq; cases hseq)).1

/-- Keys produced by the sub-object flattening loop of buildRequestData:
those of the accumulator plus those of every designated variant object in
the traversed fields. -/
theorem mem_keysOf_buildFold (e : Entity) (l : List (String × JsVal))
    (acc : List (String × JsVal)) (k : String) :
    (k ∈ keysOf (l.foldl (fun acc kv =>
        if canReadSubRequestData e kv.1 then extendOwn acc (toJSONFields kv.2) else acc) acc) ↔
      k ∈ keysOf acc ∨
        ∃ p v, (p, v) ∈ l ∧ canReadSubRequestData e p = true ∧ k ∈ keysOf (toJSONFields v)) := by
  induction l generalizing acc with
  | nil => simp
  | cons kv rest ih =>
    simp only [List.foldl_cons]
    by_cases hc : canReadSubRequestData e kv.1 = true
    · rw [if_pos hc, ih, mem_keysOf_extendOwn]
      constructor
      · rintro ((hacc | hsub) | ⟨p, v, hmem, hcr, hk⟩)
        · exact Or.inl hacc
        · exact Or.inr ⟨kv.1, kv.2, List.mem_cons_self _ _, hc, hsub⟩
        · exact Or.inr ⟨p, v, List.mem_cons_of_mem _ hmem, hcr, hk⟩
      · rintro (hacc | ⟨p, v, hmem, hcr, hk⟩)
        · exact Or.inl (Or.inl hacc)
        · rcases List.mem_cons.mp hmem with heq | hmem'
          · have hv : v = kv.2 := by rw [← heq]
            exact Or.inl (Or.inr (hv ▸ hk))
          · exact Or.inr ⟨p, v, hmem', hcr, hk⟩
    · rw [if_neg hc, ih]
      constructor
      · rintro (hacc | ⟨p, v, hmem, hcr, hk⟩)
        · exact Or.inl hacc
        · exact Or.inr ⟨p, v, List.mem_cons_of_mem _ hmem, hcr, hk⟩
      · rintro (hacc | ⟨p, v, hmem, hcr, hk⟩)
        · exact Or.inl hacc
        · rcases List.mem_cons.mp hmem with heq | hmem'
          · exfalso
            apply hc
            have hp : p = kv.1 := by rw [← heq]
            rw [← hp]
            exact hcr
          · exact Or.inr ⟨p, v, hmem', hcr, hk⟩

/-- Keys surviving the read-only blacklist filter of buildRequestData. -/
theorem mem_keysOf_blacklistFilter (e : Entity) (k : String) :
    (k ∈ keysOf (e.fields.filter (fun kv => !(e.readOnly.contains kv.1))) ↔
      k ∈ keysOf e.fields ∧ k ∉ e.readOnly) := by
  unfold keysOf
  constructor
  · intro hmem
    rcases List.mem_map.mp hmem with ⟨kv, hkv, hfst⟩
    rcases List.mem_filter.mp hkv with ⟨hin, hro⟩
    refine ⟨List.mem_map.mpr ⟨kv, hin, hfst⟩, ?_⟩
    intro hk
    rw [Bool.not_eq_true'] at hro
    have hro' : e.readOnly.elem kv.1 = false := hro
    have htrue : e.readOnly.elem kv.1 = true := List.elem_eq_true_of_mem (hfst ▸ hk)
    rw [htrue] at hro'
    exact Bool.noConfusion hro'
  · rintro ⟨hmem, hro⟩
    rcases List.mem_map.mp hmem with ⟨kv, hkv, hfst⟩
    refine List.mem_map.mpr ⟨kv, List.mem_filter.mpr ⟨hkv, ?_⟩, hfst⟩
    rw [Bool.not_eq_true']
    show e.readOnly.elem kv.1 = false
    cases helem : e.readOnly.elem kv.1 with
    | false => rfl
    | true => exact absurd (List.elem_iff.mp helem) (fun hin => hro (hfst ▸ hin))

/-- A PayIn whose designated PaymentDetails variant object serializes a field
named like one of the read-only properties of the entity. -/
def cexEntity : Entity :=
  { kind := EntityKind.payIn
    fields :=
      [("Id", JsVal.str "X"),
       ("PaymentDetails", JsVal.obj [("Id", JsVal.str "Y"), ("CardId", JsVal.str "C")])]
    readOnly := ["Id"] }

/-- C2 counterexample: buildRequestData drops the read-only keys first and
flattens the designated sub-objects afterwards, so a designated variant
object carrying a read-only-named field reintroduces it: the payload for
cexEntity holds the blacklisted key Id, against the claim that no read-only
named field ever appears. -/
theorem buildRequestData_readonly_reintroduced_cex :
    keysOf (buildRequestData cexEntity) = ["PaymentDetails", "Id", "CardId"] ∧
    "Id" ∈ keysOf (buildRequestData cexEntity) ∧
    "Id" ∈ cexEntity.readOnly := by
  refine ⟨by decide, by decide, by decide⟩

/-- C2 as amended: the payload of buildRequestData holds no field named in
the read-only set except keys reintroduced by the designated sub-object
flattening (PaymentDetails and ExecutionDetails on a PayIn,
MeanOfPaymentDetails on a PayOut, Details on a BankAccount), and every field
of the serialized form of every designated sub-object does appear at the top
level of the payload. -/
theorem buildRequestData_amended (e : Entity) :
    (∀ k, k ∈ keysOf (buildRequestData e) → k ∈ e.readOnly →
      ∃ p v, (p, v) ∈ e.fields ∧ canReadSubRequestData e p = true ∧
        k ∈ keysOf (toJSONFields v)) ∧
    (∀ p v, (p, v) ∈ e.fields → canReadSubRequestData e p = true →
      ∀ k, k ∈ keysOf (toJSONFields v) → k ∈ keysOf (buildRequestData e)) := by
  constructor
  · intro k hk hro
    rcases (mem_keysOf_buildFold e e.fields _ k).mp hk with hfil | hsub
    · exact absurd hro ((mem_keysOf_blacklistFilter e k).mp hfil).2
    · exact hsub
  · intro p v hmem hcr k hk
    exact (mem_keysOf_buildFold e e.fields _ k).mpr (Or.inr ⟨p, v, hmem, hcr, hk⟩)

/-- Witness for the amended C2 theorem: the reintroduced Id key of cexEntity
is traced to its designated PaymentDetails sub-object, and the flattened
CardId field appears in the payload. -/
theorem buildRequestData_amended_witness :
    (∃ p v, (p, v) ∈ cexEntity.fields ∧ canReadSubRequestData cexEntity p = true ∧
      "Id" ∈ keysOf (toJSONFields v)) ∧
    "CardId" ∈ keysOf (buildRequestData cexEntity) :=
  ⟨(buildRequestData_amended cexEntity).1 "Id" (by decide) (by decide),
    (buildRequestData_amended cexEntity).2 "PaymentDetails"
      (JsVal.obj [("Id", JsVal.str "Y"), ("CardId", JsVal.str "C")])
      (List.mem_cons_of_mem _ (List.mem_cons_self _ _)) (by decide) "CardId" (by decide)⟩

/-- The default headers held by this.requestOptions.headers once a token is
stored: the constructor defaults of lines 47-50 plus the Authorization
header written by authorize(). -/
def defaultHeaders : Headers :=
  [("Content-Type", "application/json"),
   ("User-Agent", "MangoPay V2 SDK Nodejs 1.0"),
   ("Authorization", "Bearer token")]

/-- C3 counterexample: a caller headers object that contains Content-Type
replaces the default headers wholesale (the merge of line 145 only runs when
Content-Type is absent), so the merged headers carry no Authorization even
though the defaults do: the claim that a caller headers object can never
blank or replace the Authorization header fails. -/
theorem mergeHeaders_authorization_blanked_cex :
    lookupKV (mergeRequestHeaders defaultHeaders (some [("Content-Type", "text/plain")]))
        "Authorization" = none ∧
    lookupKV defaultHeaders "Authorization" = some "Bearer token" := by
  constructor <;> decide

/-- C3 as amended: without caller headers the defaults stand; caller headers
lacking Content-Type are merged under the defaults, so the defaults
(Authorization included) win on every colliding key while caller-only keys
survive; caller headers containing Content-Type replace the defaults
wholesale, dropping Authorization unless the caller supplies one. -/
theorem mergeHeaders_amended (defaults h : Headers) (k : String)
    (hnd : (keysOf defaults).Nodup) :
    mergeRequestHeaders defaults none = defaults ∧
    (lookupKV h "Content-Type" = none →
      lookupKV (mergeRequestHeaders defaults (some h)) k =
        (lookupKV defaults k).or (lookupKV h k)) ∧
    (lookupKV h "Content-Type" ≠ none →
      mergeRequestHeaders defaults (some h) = h) := by
  refine ⟨rfl, ?_, ?_⟩
  · intro hct
    simp only [mergeRequestHeaders]
    rw [if_pos hct]
    exact lookupKV_extendOwn h defaults k hnd
  · intro hct
    simp only [mergeRequestHeaders]
    rw [if_neg hct]

/-- Witness for the amended C3 theorem: a caller header set without
Content-Type cannot displace the default Authorization header. -/
theorem mergeHeaders_amended_witness :
    (keysOf defaultHeaders).Nodup ∧
    lookupKV (mergeRequestHeaders defaultHeaders (some [("X-Custom", "1")])) "Authorization" =
      (lookupKV defaultHeaders "Authorization").or
        (lookupKV [("X-Custom", "1")] "Authorization") :=
  ⟨by decide,
    (mergeHeaders_amended defaultHeaders [("X-Custom", "1")] "Authorization"
      (by decide)).2.1 (by decide)⟩

/-- A response with an application error status. -/
def resp400 : Resp := ⟨400, JsVal.obj [("Message", JsVal.str "oops")], []⟩

/-- Whether a settled value carries the given HTTP status code: it is the
response object itself with that code, or a payload holding a field with
that number. -/
def valueCarriesStatus (v : Resolved) (code : Nat) : Bool :=
  match v with
  | Resolved.full c _ _ => c == code
  | Resolved.raw (JsVal.obj fs) =>
    fs.any (fun kv =>
      match kv.2 with
      | JsVal.num m => m == (code : Int)
      | _ => false)
  | _ => false

/-- C5 counterexample: on a non-2xx non-401 status the promise is rejected
with the bare decoded body (the second argument passed to reject at line 197
is discarded), not with an error object carrying the status: the rejection
value for a 400 response whose body only holds a Message string carries the
status code nowhere.  The error handler does receive the decoded body. -/
theorem non2xx_rejection_no_status_cex :
    (requestApi sampleOpts true sampleSt [resp400]).outcome
        = Outcome.rejected (Resolved.raw (JsVal.obj [("Message", JsVal.str "oops")])) ∧
    (requestApi sampleOpts true sampleSt [resp400]).state.errorHandlerCalls
        = [(JsVal.str "oops", JsVal.obj [("Message", JsVal.str "oops")])] ∧
    valueCarriesStatus (Resolved.raw (JsVal.obj [("Message", JsVal.str "oops")])) 400
        = false :=
  ⟨rfl, rfl, rfl⟩

/-- C5 as amended: on a non-2xx status other than 401 the dispatcher invokes
the configured error handler with (body.Message, body) and rejects the call
with the decoded body itself, or with the response object extended with the
body when resolveWithFullResponse is set; no RequestError wrapper combining
body and status exists, so the status accompanies the rejection only in the
resolveWithFullResponse shape. -/
theorem non2xx_errorHandler_and_reject (opts : ReqOptions) (st : DispatchState) (r : Resp)
    (rest : List Resp) (h401 : r.statusCode ≠ 401)
    (hbad : r.statusCode < 200 ∨ r.statusCode > 299) :
    requestApi opts true st (r :: rest) =
      ⟨Outcome.rejected (if opts.resolveWithFullResponse then
          Resolved.full r.statusCode r.headers r.data else Resolved.raw r.data),
        { st with errorHandlerCalls :=
            st.errorHandlerCalls ++ [(jsGet r.data "Message", r.data)] }⟩ := by
  have h4 : (r.statusCode == 401) = false := beq_eq_false_iff_ne.mpr h401
  have hb : (decide (r.statusCode < 200) || decide (r.statusCode > 299)) = true := by
    rcases hbad with h | h <;> simp [h]
  simp [requestApi, h4, hb]

/-- Witness for the amended C5 theorem at the concrete 400 response. -/
theorem non2xx_errorHandler_and_reject_witness :
    resp400.statusCode ≠ 401 ∧
    (resp400.statusCode < 200 ∨ resp400.statusCode > 299) ∧
    requestApi sampleOpts true sampleSt [resp400] =
      ⟨Outcome.rejected (if sampleOpts.resolveWithFullResponse then
          Resolved.full resp400.statusCode resp400.headers resp400.data
        else Resolved.raw resp400.data),
        { sampleSt with errorHandlerCalls :=
            sampleSt.errorHandlerCalls ++ [(jsGet resp400.data "Message", resp400.data)] }⟩ :=
  ⟨by decide, Or.inr (by decide),
    non2xx_errorHandler_and_reject sampleOpts sampleSt resp400 []
      (by decide) (Or.inr (by decide))⟩

/-- Own-property test data.hasOwnProperty(k) of a decoded value. -/
def hasOwnProperty (v : JsVal) (k : String) : Bool :=
  match v with
  | JsVal.obj fs => (keysOf fs).contains k
  | _ => false

/-- A token endpoint response that contains both token fields, with an empty
token_type string. -/
def emptyTypeTokenResp : JsVal :=
  JsVal.obj [("token_type", JsVal.str ""), ("access_token", JsVal.str "tok"),
    ("expires_in", JsVal.num 3600)]

/-- C6 counterexample: the success test of authorize() (line 284) is the
truthiness of data.token_type and data.access_token, not their presence: a
response containing both fields with an empty token_type string is rejected,
so resolving is not equivalent to the response containing both fields. -/
theorem authorize_truthiness_cex :
    hasOwnProperty emptyTypeTokenResp "token_type" = true ∧
    hasOwnProperty emptyTypeTokenResp "access_token" = true ∧
    authorize 0 (Except.ok emptyTypeTokenResp) = AuthOutcome.rejected emptyTypeTokenResp :=
  ⟨rfl, rfl, rfl⟩

/-- C6 as amended: authorize() resolves with the raw token payload, storing
tokenType plus a space plus accessToken as the Authorization header and the
expiry now + expires_in times 1000 milliseconds, if and only if the token
response carries truthy (in particular non-empty) token_type and
access_token values; otherwise it rejects with the payload, and a network
failure rejects with the transport error message. -/
theorem authorize_amended (now : Int) (d : JsVal) (msg : String) :
    ((truthy (jsGet d "token_type") = true ∧ truthy (jsGet d "access_token") = true) →
      authorize now (Except.ok d) =
        AuthOutcome.ok
          (jsToString (jsGet d "token_type") ++ " " ++ jsToString (jsGet d "access_token"))
          (jsAdd (JsNum.val now) (jsMul (jsToNum (jsGet d "expires_in")) (JsNum.val 1000)))
          d) ∧
    (¬(truthy (jsGet d "token_type") = true ∧ truthy (jsGet d "access_token") = true) →
      authorize now (Except.ok d) = AuthOutcome.rejected d) ∧
    authorize now (Except.error msg) = AuthOutcome.transportRejected msg := by
  refine ⟨?_, ?_, rfl⟩
  · rintro ⟨h1, h2⟩
    simp [authorize, h1, h2]
  · intro hno
    cases h1 : truthy (jsGet d "token_type") with
    | false => simp [authorize, h1]
    | true =>
      cases h2 : truthy (jsGet d "access_token") with
      | false => simp [authorize, h1, h2]
      | true => exact absurd ⟨h1, h2⟩ hno

/-- A well-formed token endpoint response. -/
def goodTokenResp : JsVal :=
  JsVal.obj [("token_type", JsVal.str "Bearer"), ("access_token", JsVal.str "tok"),
    ("expires_in", JsVal.num 3600)]

/-- Witness for the amended C6 theorem at a concrete token response. -/
theorem authorize_amended_witness :
    (truthy (jsGet goodTokenResp "token_type") = true ∧
      truthy (jsGet goodTokenResp "access_token") = true) ∧
    authorize 50 (Except.ok goodTokenResp) =
      AuthOutcome.ok "Bearer tok" (JsNum.val 3600050) goodTokenResp :=
  ⟨⟨rfl, rfl⟩, ((authorize_amended 50 goodTokenResp "x").1 ⟨rfl, rfl⟩).trans rfl⟩

/-- A list-typed success payload. -/
def listPayload : List JsVal :=
  [JsVal.obj [("Id", JsVal.str "1")], JsVal.obj [("Id", JsVal.str "2")]]

/-- A successful response whose body is the list payload. -/
def respList : Resp := ⟨200, JsVal.arr listPayload, []⟩

/-- Options of a registered endpoint call with a dataClass and
resolveWithFullResponse set. -/
def fullRespOpts : ReqOptions := ⟨"users_all", true, true⟩

/-- Claim C7, statement under test at one call: a successful call with a
configured dataClass and a list-typed payload resolves with the model
instances built from the payload elements in order. -/
def specClaimC7 (opts : ReqOptions) (st : DispatchState) (r : Resp)
    (items : List JsVal) : Prop :=
  r.data = JsVal.arr items →
  (requestApi opts true st [r]).outcome =
    Outcome.resolved (Resolved.insts (items.map ModelInst.mk))

/-- C7 counterexample: the dataClass wrapping of line 210 is skipped when
resolveWithFullResponse is set (and also for manual verbs), so a successful
call with a configured dataClass, a list payload and resolveWithFullResponse
resolves with the extended response object instead of model instances. -/
theorem dataClass_list_fullResponse_cex :
    (requestApi fullRespOpts true sampleSt [respList]).outcome
        = Outcome.resolved (Resolved.full 200 [] (JsVal.arr listPayload)) ∧
    ¬ specClaimC7 fullRespOpts sampleSt respList listPayload := by
  refine ⟨rfl, ?_⟩
  intro hclaim
  have h := hclaim rfl
  rw [show (requestApi fullRespOpts true sampleSt [respList]).outcome
      = Outcome.resolved (Resolved.full 200 [] (JsVal.arr listPayload)) from rfl] at h
  simp at h

/-- C7 as amended: for every successful call dispatched through a registered
(non-manual) endpoint method with a configured dataClass and without
resolveWithFullResponse, a list-typed payload resolves as the ordered
sequence of model instances built from the payload elements: same length,
and the i-th instance is constructed from the i-th element. -/
theorem dataClass_list_mapping (opts : ReqOptions) (st : DispatchState) (r : Resp)
    (rest : List Resp) (items : List JsVal)
    (hm : isManualVerb opts.method = false)
    (hdc : opts.hasDataClass = true)
    (hfull : opts.resolveWithFullResponse = false)
    (hs : 200 ≤ r.statusCode ∧ r.statusCode ≤ 299)
    (hd : r.data = JsVal.arr items) :
    (requestApi opts true st (r :: rest)).outcome
        = Outcome.resolved (Resolved.insts (items.map ModelInst.mk)) ∧
    (items.map ModelInst.mk).length = items.length ∧
    (∀ i : Nat, (items.map ModelInst.mk)[i]? = (items[i]?).map ModelInst.mk) := by
  refine ⟨?_, List.length_map _ _, fun i => List.getElem?_map _ _ _⟩
  have h4 : (r.statusCode == 401) = false := by
    rw [beq_eq_false_iff_ne]
    omega
  have hlow : decide (r.statusCode < 200) = false := by
    rw [decide_eq_false_iff_not]
    omega
  have hhigh : decide (r.statusCode > 299) = false := by
    rw [decide_eq_false_iff_not]
    omega
  simp [requestApi, h4, hlow, hhigh, hm, hdc, hfull, hd]

/-- Options of a registered endpoint call with a dataClass and a plain
resolution. -/
def listOpts : ReqOptions := ⟨"users_all", true, false⟩

/-- Witness for the amended C7 theorem at the concrete list response. -/
theorem dataClass_list_mapping_witness :
    isManualVerb listOpts.method = false ∧
    listOpts.hasDataClass = true ∧
    listOpts.resolveWithFullResponse = false ∧
    (200 ≤ respList.statusCode ∧ respList.statusCode ≤ 299) ∧
    respList.data = JsVal.arr listPayload ∧
    (requestApi listOpts true sampleSt [respList]).outcome
      = Outcome.resolved (Resolved.insts (listPayload.map ModelInst.mk)) :=
  ⟨by decide, rfl, rfl, ⟨by decide, by decide⟩, rfl,
    (dataClass_list_mapping listOpts sampleSt respList [] listPayload
      (by decide) rfl rfl ⟨by decide, by decide⟩ rfl).1⟩

/-- Options of a registered endpoint call with a dataClass configured. -/
def dcOpts : ReqOptions := ⟨"users_create", true, false⟩

/-- Dispatcher facts whose caller data object already holds a field. -/
def stWithData : DispatchState := ⟨0, [], [("Tag", JsVal.str "t")], none⟩

/-- A successful response with an object body. -/
def respObj : Resp := ⟨200, JsVal.obj [("Id", JsVal.str "9")], []⟩

/-- Claim C9: on every successful call through a registered (non-manual)
endpoint method, the caller data object aliased by requestOptions.data is
extended in place with every top-level field of the raw payload and with the
whole payload under a data key (line 205); this happens for every option
set, in particular when a dataClass is configured and the call resolves with
model instances, since the extend precedes the wrapping. -/
theorem success_extends_options_data (opts : ReqOptions) (st : DispatchState) (r : Resp)
    (rest : List Resp)
    (hm : isManualVerb opts.method = false)
    (hs : 200 ≤ r.statusCode ∧ r.statusCode ≤ 299) :
    (requestApi opts true st (r :: rest)).state.optionsData
        = setKey (extendOwn st.optionsData (ownFields r.data)) "data" r.data ∧
    lookupKV (requestApi opts true st (r :: rest)).state.optionsData "data" = some r.data ∧
    (∀ k v, k ≠ "data" → (keysOf (ownFields r.data)).Nodup → (k, v) ∈ ownFields r.data →
      lookupKV (requestApi opts true st (r :: rest)).state.optionsData k = some v) := by
  have h4 : (r.statusCode == 401) = false := by
    rw [beq_eq_false_iff_ne]
    omega
  have hlow : decide (r.statusCode < 200) = false := by
    rw [decide_eq_false_iff_not]
    omega
  have hhigh : decide (r.statusCode > 299) = false := by
    rw [decide_eq_false_iff_not]
    omega
  have heq : (requestApi opts true st (r :: rest)).state.optionsData
      = setKey (extendOwn st.optionsData (ownFields r.data)) "data" r.data := by
    simp [requestApi, h4, hlow, hhigh, hm]
  refine ⟨heq, ?_, ?_⟩
  · rw [heq]
    exact lookupKV_setKey_self _ _ _
  · intro k v hk hnd hmem
    rw [heq, lookupKV_setKey_ne _ _ _ _ hk]
    exact lookupKV_extendOwn_mem _ _ _ _ hnd hmem

/-- Witness for the C9 theorem: with a dataClass configured, the caller data
object still ends up extended with the payload field and the data key. -/
theorem success_extends_options_data_witness :
    isManualVerb dcOpts.method = false ∧
    (200 ≤ respObj.statusCode ∧ respObj.statusCode ≤ 299) ∧
    (requestApi dcOpts true stWithData [respObj]).state.optionsData
      = setKey (extendOwn stWithData.optionsData (ownFields respObj.data)) "data"
          respObj.data :=
  ⟨by decide, ⟨by decide, by decide⟩,
    (success_extends_options_data dcOpts stWithData respObj []
      (by decide) ⟨by decide, by decide⟩).1⟩

end Mangopay
